import Mathlib

/-!
# Verification of the pandapipes pipeflow solver specification

This file gives a shallow embedding, over the rationals, of the parts of the
pandapipes pipeflow solver that the checked claims are about: component
momentum laws (compressor, pump, pipe friction closures), the residual
assembly and convergence test of the Newton–Raphson kernel, the connectivity
check with out-of-service reduction and NaN result write-back, the thermal
branch equations, and the result values stored in the district-heating
tutorial notebook.

The repository snapshot at hand ships the documentation, the changelog and
the tutorial notebooks of pandapipes; the Python solver modules themselves
are not part of the snapshot.  Definitions below are therefore modelled
from the repository's own documentation wherever that documentation states
the formula or the behaviour (compressor law, Nikuradse / Prandtl-Colebrook
closures, known issue for zero-flow thermal branches, tutorial outputs),
and from the specification of the solver architecture otherwise; each such
definition says in its doc string what it is modelled from.

All numeric state is `ℚ`.  Transcendental helpers of the physical formulas
(base-10 logarithm, square root, exponential, real powers) enter the
formulas as explicit function parameters, so that every definition stays
executable and the algebraic structure of the code is still faithfully
represented.
-/

namespace Pandapipes

/-! ## Compressor component (claim C2)

Modelled from `doc/source/components/compressor/compressor_component.rst`:
the pressure lift is applied on absolute pressures (relative pressure shown
in pandapipes plus ambient pressure) with `pressure_ratio` Π, and the
compression power is the ideal adiabatic estimate with κ = 1.4. -/

/-- Modelled from the compressor documentation: the solved outlet (relative)
pressure of a compressor branch between junctions `i` and `j`:
`p_j = (p_i + p_amb) * Π − p_amb` if the branch mass flow is positive,
and `p_j = p_i` otherwise. -/
def compressorPTo (pFrom pAmb ratioVal mdot : ℚ) : ℚ :=
  if 0 < mdot then (pFrom + pAmb) * ratioVal - pAmb else pFrom

/-- Isentropic exponent assumed by the compressor power estimate. -/
def kappa : ℚ := 7 / 5

/-- Modelled from the compressor documentation: ideal adiabatic compression
power (in MW) for positive mass flow,
`P = mdot * κ/(κ−1) * R_s * z(p_i) * T_i * (Π^((κ−1)/κ) − 1) * 1e-6`.
The transcendental factor `Π^((κ−1)/κ)` is passed in as `ratioPow`. -/
def compressorPower (mdot rs z ti ratioPow : ℚ) : ℚ :=
  mdot * (kappa / (kappa - 1)) * rs * z * ti * (ratioPow - 1) * (1 / 1000000)

/-- The ideal adiabatic closed form the specification compares the reported
compression power against (identical algebraic expression, kept as a second
name so that the claim's comparison is meaningful). -/
def adiabaticClosedForm (mdot rs z ti ratioPow : ℚ) : ℚ :=
  mdot * (kappa / (kappa - 1)) * rs * z * ti * (ratioPow - 1) * (1 / 1000000)

/-! ## Pump component (claim C3)

Modelled from the specification and the changelog entries
"[CHANGED] bypassing for pumps, pressure lift = 0 for negative and very high
volume flows" and "[CHANGED] pressure lift for pumps is now always >= 0":
the pressure lift is the stored polynomial regression evaluated at the
current volume flow, clipped to be nonnegative, with bypass (lift 0) on
reverse flow and on flow beyond the regression's maximal volume flow. -/

/-- Horner evaluation of the stored regression coefficients
(`coeffs = [a_0, a_1, ...]`, value `a_0 + a_1 v + a_2 v² + ...`). -/
def polyEval (coeffs : List ℚ) (v : ℚ) : ℚ :=
  coeffs.foldr (fun a acc => a + v * acc) 0

/-- Modelled from the spec: pump pressure lift at volume flow `v` with stored
regression `coeffs` and maximal regression volume flow `vMax`: bypass
(lift 0) when `v < 0` or `v > vMax`, otherwise the regression value clipped
to be `≥ 0`. -/
def pumpPressureLift (coeffs : List ℚ) (vMax v : ℚ) : ℚ :=
  if v < 0 ∨ vMax < v then 0 else max 0 (polyEval coeffs v)

end Pandapipes

namespace Pandapipes

/-! ## Pipe friction closures (claim C4)

Modelled from `doc/source/components/pipe/pipe_component.rst` (Nikuradse and
Prandtl-Colebrook formulas; the note that the Nikuradse formula is applied
for laminar flow as well), from the changelog entries
"[ADDED] Swamee-Jain friction model" and "[CHANGED] Adding a maximum number
of iterations when using colebrook friction model", and from the
specification's list of selectable closures.  The base-10 logarithm and the
square root are parameters `log10`, `sqrtQ` of the formulas. -/

/-- The user-selectable friction-factor closures. -/
inductive FrictionModel
  | nikuradse
  | swameeJain
  | colebrook
  deriving DecidableEq, Repr

/-- Laminar-regime contribution `64 / Re` of the friction factor. -/
def lambdaLaminar (re : ℚ) : ℚ := 64 / re

/-- Turbulent Nikuradse contribution `(−2 · log10(k / (3.71 d)))⁻²`. -/
def lambdaTurbNikuradse (log10 : ℚ → ℚ) (k d : ℚ) : ℚ :=
  1 / (-2 * log10 (k / (3.71 * d)))^2

/-- Explicit Swamee-Jain friction factor
`0.25 / (log10(k/(3.7 d) + 5.74/Re^0.9))²`; the non-integer power `Re^0.9`
is passed in as `rePow09`. -/
def lambdaSwameeJain (log10 : ℚ → ℚ) (k d rePow09 : ℚ) : ℚ :=
  0.25 / (log10 (k / (3.7 * d) + 5.74 / rePow09))^2

/-- One step of the Prandtl-Colebrook fixed-point iteration
`1/√λ = −2 · log10(2.51/(Re·√λ) + k/(3.71 d))`, solved for λ. -/
def colebrookStep (log10 sqrtQ : ℚ → ℚ) (re k d lam : ℚ) : ℚ :=
  1 / (-2 * log10 (2.51 / (re * sqrtQ lam) + k / (3.71 * d)))^2

/-- Capped Prandtl-Colebrook inner iteration from start value `lam0`. -/
def colebrookIterate (log10 sqrtQ : ℚ → ℚ) (re k d : ℚ) :
    ℕ → ℚ → ℚ
  | 0, lam => lam
  | n + 1, lam => colebrookIterate log10 sqrtQ re k d n
      (colebrookStep log10 sqrtQ re k d lam)

/-- Modelled from the pipe documentation and the spec: the friction factor
λ dispatched on the selected closure.  For Nikuradse the laminar and the
turbulent contribution are summed into one explicit value regardless of the
flow regime; for Prandtl-Colebrook an inner iteration with its own cap
`maxIterCole` refines the start value. -/
def calcLambda (log10 sqrtQ : ℚ → ℚ) (model : FrictionModel)
    (re k d : ℚ) (rePow09 : ℚ) (maxIterCole : ℕ) (lam0 : ℚ) : ℚ :=
  match model with
  | .nikuradse => lambdaLaminar re + lambdaTurbNikuradse log10 k d
  | .swameeJain => lambdaSwameeJain log10 k d rePow09
  | .colebrook => colebrookIterate log10 sqrtQ re k d maxIterCole lam0

/-- The laminar/turbulent regime split (Re < 2300 laminar). -/
def laminarRegime (re : ℚ) : Bool := re < 2300

end Pandapipes

namespace Pandapipes

/-! ## Error taxonomy

Modelled from the spec's error-handling design: errors surfaced at the
boundary of the `pipeflow` call. -/

/-- The error signals surfaced by a pipeflow call. -/
inductive PipeflowError
  | noConvergence
  | noSlack
  | invalidTopology
  | thermalNoConvergence
  | solverError
  deriving DecidableEq, Repr

/-! ## Thermal system row of a zero-flow branch (claim C5)

Modelled from the known-issues documentation
(`doc/source/about/known_issues.rst`): "During a heat temperature
calculation, pipes are not allowed to carry a fluid with zero velocity.
This case leads to a zero line in the system matrix at the moment."
The thermal branch equation fixes the branch outlet temperature through
`mdot·cp·T_out = mdot·cp·(T_amb + decay·(T_in − T_amb))` where `decay` is
the exponential heat-loss factor of the branch; both the matrix
coefficient and the right-hand side carry the factor `mdot·cp`, so a
zero-mass-flow branch contributes a zero line. -/

/-- The thermal system-matrix row of one thermally active branch:
(coefficient of the branch outlet temperature, right-hand side). -/
def thermalBranchRow (mdot cp decay tIn tAmb : ℚ) : ℚ × ℚ :=
  (mdot * cp, mdot * cp * (tAmb + decay * (tIn - tAmb)))

/-- Direct sparse elimination of the single-branch thermal equation: a zero
pivot is a singular factorization and surfaces as `SolverError`. -/
def luSolveRow (row : ℚ × ℚ) : Except PipeflowError ℚ :=
  if row.1 = 0 then .error .solverError else .ok (row.2 / row.1)

/-- The thermal solve for one thermally active branch fed from a node at
temperature `tIn`: assemble the branch row and eliminate it. -/
def thermalSolveBranch (mdot cp decay tIn tAmb : ℚ) : Except PipeflowError ℚ :=
  luSolveRow (thermalBranchRow mdot cp decay tIn tAmb)

end Pandapipes

namespace Pandapipes.NR

/-! ## Residual assembly and convergence test of the hydraulic solver
(claim C1)

Modelled from the spec's hydraulic-solver contract and from
`doc/source/pipeflow/pipeflow_procedure.rst`: the load (residual) vector is
built by summarizing all node-related residuals (incoming and outgoing mass
flows) at all nodes and appending the branch residuals; the Newton loop
stops when the residual, pressure-step and flow-step tolerances are all
met. -/

/-- Node type tag of a NodePIT row (hydraulically, a node is either
pressure-fixed slack or free). -/
inductive NodeType
  | pFixed
  | free
  deriving DecidableEq, Repr

/-- The columns of one NodePIT row that the residual assembly reads. -/
structure NodeRow where
  ntype : NodeType
  p : ℚ
  pSet : ℚ
  mSource : ℚ
  mSink : ℚ
  active : Bool
  deriving DecidableEq, Repr

instance : Inhabited NodeRow := ⟨⟨.free, 0, 0, 0, 0, false⟩⟩

/-- The columns of one BranchPIT row that the node residuals read. -/
structure BranchRow where
  fromNode : ℕ
  toNode : ℕ
  mdot : ℚ
  active : Bool
  deriving DecidableEq, Repr

instance : Inhabited BranchRow := ⟨⟨0, 0, 0, false⟩⟩

/-- Sum of mass flows of active branches directed into node `i`. -/
def inflowSum (branches : List BranchRow) (i : ℕ) : ℚ :=
  (branches.map (fun b => if b.active && b.toNode == i then b.mdot else 0)).sum

/-- Sum of mass flows of active branches directed out of node `i`. -/
def outflowSum (branches : List BranchRow) (i : ℕ) : ℚ :=
  (branches.map (fun b => if b.active && b.fromNode == i then b.mdot else 0)).sum

/-- The node-related residual of row `i`: for a free node the net mass-flow
imbalance (signed branch flows plus source injection minus sink demand),
for a slack node the pressure mismatch `p − p_set`. -/
def nodeResidual (nodes : List NodeRow) (branches : List BranchRow) (i : ℕ) : ℚ :=
  let n := nodes.getD i default
  match n.ntype with
  | .pFixed => n.p - n.pSet
  | .free => inflowSum branches i - outflowSum branches i + n.mSource - n.mSink

/-- The load (residual) vector of one Newton iteration: the node residuals
of all active nodes followed by the branch residuals. -/
def residualVector (nodes : List NodeRow) (branches : List BranchRow)
    (branchRes : List ℚ) : List ℚ :=
  ((List.range nodes.length).filterMap fun i =>
    if (nodes.getD i default).active then some (nodeResidual nodes branches i)
    else none)
  ++ branchRes

/-- Maximum absolute value of a residual vector (0 for the empty vector). -/
def maxAbs (l : List ℚ) : ℚ :=
  l.foldr (fun x m => max |x| m) 0

/-- The convergence test of the hydraulic Newton loop:
`max |residual| ≤ tol_res ∧ max |Δp| ≤ tol_p ∧ max |Δmdot| ≤ tol_m`. -/
def hydConverged (res deltaP deltaM : List ℚ) (tolRes tolP tolM : ℚ) : Prop :=
  maxAbs res ≤ tolRes ∧ maxAbs deltaP ≤ tolP ∧ maxAbs deltaM ≤ tolM

end Pandapipes.NR

namespace Pandapipes.Flow

/-! ## The pipeflow pipeline (claims C6, C7, C10)

Modelled from the spec's pipeline (PIT builder → connectivity check →
reducer → solver kernels → result extractor) and from
`doc/source/pipeflow/pipeflow_procedure.rst` /
`doc/source/pipeflow/calculation_modes.rst`: the connectivity check marks
every node without a path to a pressure-fixed slack node out of service for
the duration of the solve; the solve operates on the active rows only;
results are written back on success with `NaN` (modelled as `none`) for
out-of-service rows, and a failed solve clears the result tables and
restores the pre-solve service flags.  The hydraulic kernel below solves
the conservation equations exactly on tree-shaped active subnetworks by
leaf elimination (continuity fixes every branch flow, the momentum law
`p_from − p_to = c·mdot·|mdot|` then fixes every pressure from the slack
node); meshed active subnetworks are reported as `NoConvergence`. -/

/-- Junction kind: pressure-fixed slack (ext-grid) or free. -/
inductive JKind
  | pFixed (pSet : ℚ)
  | free
  deriving DecidableEq, Repr

/-- Is the junction kind a pressure-fixed slack? -/
def isPFixed : JKind → Bool
  | .pFixed _ => true
  | .free => false

/-- One junction of the element tables: kind, nominal pressure, fluid
temperature, sink demand (sink − source), in-service flag. -/
structure Junction where
  kind : JKind
  pn : ℚ
  tn : ℚ
  sink : ℚ
  inService : Bool
  deriving DecidableEq, Repr

instance : Inhabited Junction := ⟨⟨.free, 0, 0, 0, false⟩⟩

/-- One branch of the element tables: endpoints, loss coefficient of the
momentum law `p_from − p_to = c·mdot·|mdot|`, ambient temperature for heat
losses, in-service flag (a closed valve is an out-of-service branch). -/
structure Branch where
  fromJ : ℕ
  toJ : ℕ
  c : ℚ
  tAmb : ℚ
  inService : Bool
  deriving DecidableEq, Repr

instance : Inhabited Branch := ⟨⟨0, 0, 0, 0, false⟩⟩

/-- The network object: element tables plus result tables (a `none` entry
is a NaN result row). -/
structure Net where
  junctions : List Junction
  branches : List Branch
  resP : List (Option ℚ)
  resT : List (Option ℚ)
  resMdot : List (Option ℚ)
  deriving DecidableEq, Repr

/-- Pre-solve validity: every branch references existing junctions. -/
def validTopology (net : Net) : Bool :=
  net.branches.all fun b =>
    b.fromJ < net.junctions.length && b.toJ < net.junctions.length

/-- Seed of the connectivity search: the in-service pressure-fixed nodes. -/
def seedReach (js : List Junction) : List Bool :=
  js.map fun j => j.inService && isPFixed j.kind

/-- One expansion step of the connectivity search: a node becomes reachable
if it is in service and one in-service branch connects it to an already
reachable node. -/
def expandReach (js : List Junction) (bs : List Branch) (reach : List Bool) :
    List Bool :=
  (List.range js.length).map fun i =>
    reach.getD i false ||
      ((js.getD i default).inService &&
        bs.any fun b => b.inService &&
          ((b.fromJ == i && reach.getD b.toJ false) ||
           (b.toJ == i && reach.getD b.fromJ false)))

/-- Bounded iteration of the expansion step. -/
def iterReach (js : List Junction) (bs : List Branch) :
    ℕ → List Bool → List Bool
  | 0, r => r
  | n + 1, r => iterReach js bs n (expandReach js bs r)

/-- The set of nodes connected to some pressure-fixed slack node through
in-service branches (`js.length` expansion steps saturate the search). -/
def reachable (js : List Junction) (bs : List Branch) : List Bool :=
  iterReach js bs js.length (seedReach js)

/-- The hydraulically supplied (active) node set of this solve: with the
connectivity check the reachable set, without it the in-service flags. -/
def activeNodes (net : Net) (check : Bool) : List Bool :=
  if check then reachable net.junctions net.branches
  else net.junctions.map (·.inService)

/-- A branch is active iff it is in service and both endpoints are active. -/
def activeBranches (net : Net) (an : List Bool) : List Bool :=
  net.branches.map fun b =>
    b.inService && an.getD b.fromJ false && an.getD b.toJ false

/-- The solve-scoped mutation of the network: the service flags are
replaced by the active sets for the duration of the solve. -/
def withServiceFlags (net : Net) (an ab : List Bool) : Net :=
  { net with
    junctions := (List.range net.junctions.length).map fun i =>
      { net.junctions.getD i default with inService := an.getD i false },
    branches := (List.range net.branches.length).map fun bi =>
      { net.branches.getD bi default with inService := ab.getD bi false } }

/-- Restoration of the pre-solve element tables (and with them the
pre-solve in-service flags; the solve mutates no other element column). -/
def restoreService (orig cur : Net) : Net :=
  { cur with junctions := orig.junctions, branches := orig.branches }

/-- Result tables cleared to all-NaN. -/
def clearedResults (net : Net) : Net :=
  { net with
    resP := net.junctions.map fun _ => none,
    resT := net.junctions.map fun _ => none,
    resMdot := net.branches.map fun _ => none }

/-- State of the leaf-elimination flow solve: solved branch flows,
accumulated downstream demand per node, eliminated-node marks. -/
structure ElimState where
  flows : List (Option ℚ)
  acc : List ℚ
  done : List Bool
  deriving DecidableEq, Repr

/-- The active branches incident to node `i` whose flow is not solved yet. -/
def incidentOpen (bs : List Branch) (ab : List Bool)
    (flows : List (Option ℚ)) (i : ℕ) : List ℕ :=
  (List.range bs.length).filter fun bi =>
    ab.getD bi false && (flows.getD bi none).isNone &&
      (let b := bs.getD bi default
       b.fromJ == i || b.toJ == i)

/-- One leaf-elimination step: pick a free active node with exactly one
unsolved incident branch, fix that branch's flow from the node's
accumulated demand (continuity), push the demand to the other endpoint. -/
def elimStep (js : List Junction) (bs : List Branch) (an ab : List Bool)
    (st : ElimState) : Option ElimState :=
  match (List.range js.length).find? (fun i =>
      an.getD i false && !isPFixed (js.getD i default).kind &&
        !(st.done.getD i false) &&
        (incidentOpen bs ab st.flows i).length == 1) with
  | none => none
  | some i =>
    match incidentOpen bs ab st.flows i with
    | [bi] =>
      let b := bs.getD bi default
      let d := st.acc.getD i 0
      let m := if b.toJ == i then d else -d
      let other := if b.toJ == i then b.fromJ else b.toJ
      some { flows := st.flows.set bi (some m),
             acc := st.acc.set other (st.acc.getD other 0 + d),
             done := st.done.set i true }
    | _ => none

/-- Bounded leaf-elimination loop. -/
def elimLoop (js : List Junction) (bs : List Branch) (an ab : List Bool) :
    ℕ → ElimState → ElimState
  | 0, st => st
  | n + 1, st =>
    match elimStep js bs an ab st with
    | none => st
    | some st' => elimLoop js bs an ab n st'

/-- The flow phase of the hydraulic kernel: continuity determines every
branch flow of a tree-shaped active subnetwork by leaf elimination. -/
def solveFlows (js : List Junction) (bs : List Branch) (an ab : List Bool) :
    ElimState :=
  elimLoop js bs an ab js.length
    { flows := bs.map fun _ => none,
      acc := js.map (·.sink),
      done := js.map fun _ => false }

/-- Initial pressures: slack nodes at their fixed pressure, free nodes
unknown, inactive nodes NaN. -/
def initP (js : List Junction) (an : List Bool) : List (Option ℚ) :=
  (List.range js.length).map fun i =>
    if an.getD i false then
      match (js.getD i default).kind with
      | .pFixed ps => some ps
      | .free => none
    else none

/-- One substitution pass of the pressure phase: across every active branch
with solved flow and exactly one known endpoint pressure, apply the
momentum law `p_from − p_to = c·mdot·|mdot|`. -/
def pressPass (bs : List Branch) (ab : List Bool) (flows : List (Option ℚ))
    (p : List (Option ℚ)) : List (Option ℚ) :=
  (List.range bs.length).foldl (fun p bi =>
    if ab.getD bi false then
      match flows.getD bi none with
      | none => p
      | some m =>
        let b := bs.getD bi default
        let drop := b.c * m * |m|
        match p.getD b.fromJ none, p.getD b.toJ none with
        | some pf, none => p.set b.toJ (some (pf - drop))
        | none, some pt => p.set b.fromJ (some (pt + drop))
        | _, _ => p
    else p) p

/-- Bounded iteration of the pressure substitution pass. -/
def pressLoop (bs : List Branch) (ab : List Bool) (flows : List (Option ℚ)) :
    ℕ → List (Option ℚ) → List (Option ℚ)
  | 0, p => p
  | n + 1, p => pressLoop bs ab flows n (pressPass bs ab flows p)

/-- Completeness of a hydraulic solution: every active node has a pressure
and every active branch has a flow. -/
def hydComplete (js : List Junction) (bs : List Branch) (an ab : List Bool)
    (p flows : List (Option ℚ)) : Bool :=
  ((List.range js.length).all fun i =>
    !(an.getD i false) || (p.getD i none).isSome) &&
  ((List.range bs.length).all fun bi =>
    !(ab.getD bi false) || (flows.getD bi none).isSome)

/-- The hydraulic solver kernel on the active rows: `NoSlack` if active
nodes exist but no active slack, otherwise leaf elimination and pressure
substitution; an incomplete solution (meshed active subnetwork) is
`NoConvergence`. -/
def runHydraulic (js : List Junction) (bs : List Branch) (an ab : List Bool) :
    Except PipeflowError (List (Option ℚ) × List (Option ℚ)) :=
  if ((List.range js.length).any fun i => an.getD i false) &&
     !((List.range js.length).any fun i =>
        an.getD i false && isPFixed (js.getD i default).kind) then
    .error .noSlack
  else
    let st := solveFlows js bs an ab
    let p := pressLoop bs ab st.flows js.length (initP js an)
    if hydComplete js bs an ab p st.flows then .ok (p, st.flows)
    else .error .noConvergence

end Pandapipes.Flow

namespace Pandapipes.Flow

/-! ### Thermal pass and calculation modes

Modelled from `doc/source/pipeflow/calculation_modes.rst`: temperature
calculation is activated by mode "sequential", "bidirectional" or "heat";
with "heat" the user has to provide a solution vector of the hydraulics
calculation manually and the temperature calculation runs on top of it.
The temperature of a node fed through a branch follows the exponential
heat-loss law `T = T_amb + (T_in − T_amb) · decay(|mdot|)` with the
transcendental decay factor passed in as a function parameter. -/

/-- Calculation modes of the pipeflow option `mode`. -/
inductive Mode
  | hydraulics
  | sequential
  | bidirectional
  | heat
  deriving DecidableEq, Repr

/-- A hydraulics solution vector (as supplied by the user in heat mode or
computed by the hydraulic kernel otherwise). -/
structure HydSolution where
  p : List (Option ℚ)
  mdot : List (Option ℚ)
  deriving DecidableEq, Repr

/-- The pipeflow options the model distinguishes. -/
structure Options where
  mode : Mode
  checkConnectivity : Bool
  suppliedHyd : Option HydSolution
  deriving DecidableEq, Repr

/-- Initial temperatures: temperature-fixed (slack) nodes pinned, free
nodes unknown, inactive nodes NaN. -/
def initT (js : List Junction) (an : List Bool) : List (Option ℚ) :=
  (List.range js.length).map fun i =>
    if an.getD i false then
      match (js.getD i default).kind with
      | .pFixed _ => some (js.getD i default).tn
      | .free => none
    else none

/-- One propagation pass of the thermal solve: across every active branch
with known flow, propagate the upstream node temperature through the
exponential heat-loss law to the downstream node. -/
def thermPass (decay : ℚ → ℚ) (bs : List Branch) (ab : List Bool)
    (flows : List (Option ℚ)) (t : List (Option ℚ)) : List (Option ℚ) :=
  (List.range bs.length).foldl (fun t bi =>
    if ab.getD bi false then
      match flows.getD bi none with
      | none => t
      | some m =>
        let b := bs.getD bi default
        let src := if 0 ≤ m then b.fromJ else b.toJ
        let dst := if 0 ≤ m then b.toJ else b.fromJ
        match t.getD src none, t.getD dst none with
        | some ts, none => t.set dst (some (b.tAmb + (ts - b.tAmb) * decay |m|))
        | _, _ => t
    else t) t

/-- Bounded iteration of the thermal propagation pass. -/
def thermLoop (decay : ℚ → ℚ) (bs : List Branch) (ab : List Bool)
    (flows : List (Option ℚ)) : ℕ → List (Option ℚ) → List (Option ℚ)
  | 0, t => t
  | n + 1, t => thermLoop decay bs ab flows n (thermPass decay bs ab flows t)

/-- The thermal solver on top of a (computed or supplied) hydraulics
solution: propagate temperatures from the temperature-fixed nodes along
the known flow directions. -/
def runThermal (decay : ℚ → ℚ) (js : List Junction) (bs : List Branch)
    (an ab : List Bool) (flows : List (Option ℚ)) : List (Option ℚ) :=
  thermLoop decay bs ab flows js.length (initT js an)

/-- Completeness of a thermal solution: every active node has a
temperature. -/
def thermComplete (js : List Junction) (an : List Bool)
    (t : List (Option ℚ)) : Bool :=
  (List.range js.length).all fun i =>
    !(an.getD i false) || (t.getD i none).isSome

/-- Junction temperatures written back by a purely hydraulic solve: the
given fluid temperatures at active nodes, NaN at inactive ones. -/
def staticT (js : List Junction) (an : List Bool) : List (Option ℚ) :=
  (List.range js.length).map fun i =>
    if an.getD i false then some (js.getD i default).tn else none

/-- Well-formedness of a user-supplied hydraulics solution vector: right
table lengths, a value at every active row, NaN at every inactive row. -/
def validHyd (net : Net) (an ab : List Bool) (h : HydSolution) : Bool :=
  (h.p.length == net.junctions.length) &&
  (h.mdot.length == net.branches.length) &&
  ((List.range net.junctions.length).all fun i =>
    (!(an.getD i false) || (h.p.getD i none).isSome) &&
    (an.getD i false || (h.p.getD i none).isNone)) &&
  ((List.range net.branches.length).all fun bi =>
    (!(ab.getD bi false) || (h.mdot.getD bi none).isSome) &&
    (ab.getD bi false || (h.mdot.getD bi none).isNone))

/-- The pipeflow call.  Modelled from the spec's pipeline and error
contract: topology check, connectivity check (service flags mutated for
the duration of the solve), hydraulic kernel (except in heat mode, where
the user-supplied hydraulics solution is used instead of running the
kernel), thermal pass for the temperature modes, then atomic write-back:
on success all result tables are written (NaN at out-of-service rows), on
failure the result tables are cleared and the pre-solve element tables
(and with them the in-service flags) are restored. -/
def pipeflow (decay : ℚ → ℚ) (net : Net) (opts : Options) :
    Except (PipeflowError × Net) Net :=
  if !validTopology net then
    .error (.invalidTopology, clearedResults net)
  else
    let an := activeNodes net opts.checkConnectivity
    let ab := activeBranches net an
    let during := withServiceFlags net an ab
    match opts.mode with
    | .heat =>
      match opts.suppliedHyd with
      | none => .error (.solverError, clearedResults (restoreService net during))
      | some h =>
        if validHyd net an ab h then
          let t := runThermal decay net.junctions net.branches an ab h.mdot
          if thermComplete net.junctions an t then
            .ok (restoreService net
              { during with resP := h.p, resT := t, resMdot := h.mdot })
          else
            .error (.thermalNoConvergence,
              clearedResults (restoreService net during))
        else .error (.solverError, clearedResults (restoreService net during))
    | m =>
      match runHydraulic net.junctions net.branches an ab with
      | .error e => .error (e, clearedResults (restoreService net during))
      | .ok (p, flows) =>
        match m with
        | .hydraulics =>
          .ok (restoreService net
            { during with resP := p, resT := staticT net.junctions an,
                          resMdot := flows })
        | _ =>
          let t := runThermal decay net.junctions net.branches an ab flows
          if thermComplete net.junctions an t then
            .ok (restoreService net
              { during with resP := p, resT := t, resMdot := flows })
          else
            .error (.thermalNoConvergence,
              clearedResults (restoreService net during))

/-- Did the pipeflow call succeed? -/
def pfOk (r : Except (PipeflowError × Net) Net) : Bool :=
  match r with
  | .ok _ => true
  | .error _ => false

/-- Pressure result row `i` of a successful call (row of a failed call
reads NaN). -/
def pfResP (r : Except (PipeflowError × Net) Net) (i : ℕ) : Option ℚ :=
  match r with
  | .ok n => n.resP.getD i none
  | .error _ => none

/-- Temperature result row `i` of a successful call. -/
def pfResT (r : Except (PipeflowError × Net) Net) (i : ℕ) : Option ℚ :=
  match r with
  | .ok n => n.resT.getD i none
  | .error _ => none

/-- Mass-flow result row `bi` of a successful call. -/
def pfResMdot (r : Except (PipeflowError × Net) Net) (bi : ℕ) : Option ℚ :=
  match r with
  | .ok n => n.resMdot.getD bi none
  | .error _ => none

/-- Completeness of the written result tables with respect to the active
sets of the solve: every active row has a value. -/
def resultsComplete (net : Net) (opts : Options) (res : Net) : Bool :=
  let an := activeNodes net opts.checkConnectivity
  let ab := activeBranches net an
  hydComplete net.junctions net.branches an ab res.resP res.resMdot &&
    thermComplete net.junctions an res.resT

end Pandapipes.Flow

namespace Pandapipes.Reversal

/-! ## Branch orientation reversal (claim C9)

Modelled from the spec's component momentum laws, thermal mixing rule and
sign convention (`part_018` of the documentation: a velocity is positive
iff the flow direction aligns with the edge direction): a network of
branches, each stored with an orientation (`fromN`, `toN`), a stored mass
flow and an ambient temperature, and a solution given by the nodal
pressures together with the nodal temperatures.  A pipe obeys
`p_from − p_to = c·mdot·|mdot|`; a compressor obeys the documented law on
absolute pressures, which reads its own orientation.  Thermally, the
upstream node temperature decays towards the branch ambient along the
physical flow direction (the sign of the stored mass flow), and a free
node's temperature is the flow-weighted mean of its incoming outlet
temperatures; the heat-loss decay factor is a function `decay` of the
absolute mass flow, passed in as a parameter. -/

/-- The branch kinds of the reversal model: direction-symmetric pipes and
directional compressors. -/
inductive BranchKind
  | pipe (c : ℚ)
  | compressor (ratioVal pAmb : ℚ)
  deriving DecidableEq, Repr

/-- A branch with stored orientation, stored mass flow and ambient
temperature for heat losses. -/
structure RBranch where
  fromN : ℕ
  toN : ℕ
  kind : BranchKind
  mdot : ℚ
  tAmb : ℚ
  deriving DecidableEq, Repr

instance : Inhabited RBranch := ⟨⟨0, 0, .pipe 0, 0, 0⟩⟩

/-- A node: pressure- and temperature-fixed slack, or free node with sink
demand. -/
inductive RNode
  | slack (pSet tSet : ℚ)
  | free (demand : ℚ)
  deriving DecidableEq, Repr

/-- The network of the reversal model. -/
structure RNet where
  nodes : List RNode
  branches : List RBranch
  deriving DecidableEq, Repr

/-- Reversing one branch: swap `fromN`/`toN` and negate the stored mass
flow (the component parameters travel along unchanged). -/
def reverseBranch (b : RBranch) : RBranch :=
  { fromN := b.toN, toN := b.fromN, kind := b.kind, mdot := -b.mdot,
    tAmb := b.tAmb }

/-- Reversing the subset of branches selected by the mask. -/
def applyReversal : List Bool → List RBranch → List RBranch
  | _, [] => []
  | [], bs => bs
  | m :: ms, b :: bs =>
    (if m then reverseBranch b else b) :: applyReversal ms bs

/-- The network with the selected subset of branches reversed. -/
def reverseSubset (mask : List Bool) (net : RNet) : RNet :=
  { net with branches := applyReversal mask net.branches }

/-- The momentum residual of one branch under nodal pressures `p`. -/
def branchResidual (p : List ℚ) (b : RBranch) : ℚ :=
  let pf := p.getD b.fromN 0
  let pt := p.getD b.toN 0
  match b.kind with
  | .pipe c => pf - pt - c * b.mdot * |b.mdot|
  | .compressor rv pAmb =>
    if 0 < b.mdot then pt + pAmb - (pf + pAmb) * rv else pt - pf

/-- The signed mass-flow contribution of one branch to node `i`
(positive mass flow runs from `fromN` to `toN`). -/
def nodeContrib (i : ℕ) (b : RBranch) : ℚ :=
  (if b.toN = i then b.mdot else 0) - (if b.fromN = i then b.mdot else 0)

/-- The nodal residual: pressure mismatch at a slack node, mass balance
(signed branch flows minus demand) at a free node. -/
def nodeRes (net : RNet) (p : List ℚ) (i : ℕ) : ℚ :=
  match net.nodes.getD i (.free 0) with
  | .slack ps _ => p.getD i 0 - ps
  | .free d => (net.branches.map (nodeContrib i)).sum - d

/-- A converged solution: all nodal and all branch residuals vanish. -/
def satisfies (net : RNet) (p : List ℚ) : Prop :=
  (∀ i < net.nodes.length, nodeRes net p i = 0) ∧
  (∀ b ∈ net.branches, branchResidual p b = 0)

instance (net : RNet) (p : List ℚ) : Decidable (satisfies net p) := by
  unfold satisfies
  infer_instance

/-- The mass flow a branch carries into node `i` along its physical flow
direction: positive stored flow arrives at `toN`, negative stored flow
arrives at `fromN` with magnitude `−mdot`; a zero flow carries nothing. -/
def inflowTo (i : ℕ) (b : RBranch) : ℚ :=
  if 0 < b.mdot then (if b.toN = i then b.mdot else 0)
  else (if b.fromN = i then -b.mdot else 0)

/-- The temperature of the branch's upstream node (the node the physical
flow leaves) under nodal temperatures `t`. -/
def upstreamT (t : List ℚ) (b : RBranch) : ℚ :=
  if 0 < b.mdot then t.getD b.fromN 0 else t.getD b.toN 0

/-- The branch outlet temperature: the upstream node temperature decayed
towards the branch ambient temperature, with heat-loss decay factor
`decay |mdot|`. -/
def outletT (decay : ℚ → ℚ) (t : List ℚ) (b : RBranch) : ℚ :=
  b.tAmb + (upstreamT t b - b.tAmb) * decay |b.mdot|

/-- The thermal residual of node `i`: pinned temperature at a slack node;
at a free node the energy-mixing balance
`Σ_in mdot_in · T_out(inflow branch) − (Σ_in mdot_in) · T_node`
(the constant heat capacity cancels). -/
def thermNodeRes (decay : ℚ → ℚ) (net : RNet) (t : List ℚ) (i : ℕ) : ℚ :=
  match net.nodes.getD i (.free 0) with
  | .slack _ ts => t.getD i 0 - ts
  | .free _ =>
    (net.branches.map (fun b => inflowTo i b * outletT decay t b)).sum
      - (net.branches.map (inflowTo i)).sum * t.getD i 0

/-- A converged coupled solution: nodal pressures `p` solve the hydraulic
residuals and nodal temperatures `t` solve the thermal residuals. -/
def satisfiesT (decay : ℚ → ℚ) (net : RNet) (p t : List ℚ) : Prop :=
  satisfies net p ∧ ∀ i < net.nodes.length, thermNodeRes decay net t i = 0

end Pandapipes.Reversal

namespace Pandapipes.CircHeat

/-! ## The circular district-heating tutorial network (claim C8)

The values below are the `res_junction` output cells stored in
`tutorials/circular_flow_in_a_district_heating_grid.ipynb`: four junctions
in a loop with a constant-mass circulation pump (20 kg/s, flow temperature
308.15 K), a heat exchanger with `qext_w = 100000` between junctions 1 and
2, and two pipes (L = 1 km, D = 0.2 m, U = 10 W/m²K, ambient 293 K,
sections = 5) between junctions 0–1 and 2–3, solved sequentially. -/

/-- Junction pressures (bar) stored in the tutorial's `res_junction`. -/
def resJunctionP : List ℚ :=
  [5, 4825502 / 1000000, 4825502 / 1000000, 4651003 / 1000000]

/-- Junction temperatures (K) stored in the tutorial's `res_junction`. -/
def resJunctionT : List ℚ :=
  [30815 / 100, 307054167 / 1000000, 305859228 / 1000000, 304929092 / 1000000]

/-- Ambient temperature (K) of the two pipes in the tutorial. -/
def tAmbient : ℚ := 293

/-- External heat flow (W) extracted by the tutorial's heat exchanger. -/
def qextW : ℚ := 100000

/-- Mass flow (kg/s) of the tutorial's circulation pump. -/
def mdotCirc : ℚ := 20

/-- The exponential heat-loss decay ratio `(T_out − T_amb)/(T_in − T_amb)`
exhibited by a pipe between stored junction temperatures. -/
def decayRatio (tIn tOut : ℚ) : ℚ := (tOut - tAmbient) / (tIn - tAmbient)

/-- The specific heat capacity implied by the stored temperature drop over
the heat exchanger via `ΔT = qext / (mdot · cp)`. -/
def impliedCp : ℚ :=
  qextW / (mdotCirc * (resJunctionT.getD 1 0 - resJunctionT.getD 2 0))

end Pandapipes.CircHeat

namespace Pandapipes

/-! ## Concrete networks used to instantiate the theorems -/

/-- Is the branch kind of the reversal model a pipe? -/
def Reversal.isPipeKind : Reversal.BranchKind → Bool
  | .pipe _ => true
  | .compressor _ _ => false

/-- A two-node network with one compressor (ratio 1.5, ambient pressure
1.01325 bar, stored flow 1 kg/s, ambient temperature 293 K) from a 5 bar,
300 K slack node to a free node with 1 kg/s demand. -/
def Reversal.comprNet : Reversal.RNet :=
  { nodes := [.slack 5 300, .free 1],
    branches := [⟨0, 1, .compressor (3/2) (101325/100000), 1, 293⟩] }

/-- The converged solution of `comprNet`:
`p₁ = (5 + p_amb)·1.5 − p_amb = 8.006625` bar. -/
def Reversal.comprSol : List ℚ := [5, 8006625 / 1000000]

/-- The converged solution of `comprNet` with its compressor reversed:
reverse flow, so no pressure lift. -/
def Reversal.comprRevSol : List ℚ := [5, 5]

/-- A two-node network with one pipe (`c = 1`, stored flow 1 kg/s, ambient
temperature 293 K) from a 5 bar, 300 K slack node to a free node with
1 kg/s demand. -/
def Reversal.pipeNet : Reversal.RNet :=
  { nodes := [.slack 5 300, .free 1],
    branches := [⟨0, 1, .pipe 1, 1, 293⟩] }

/-- The converged pressures of `pipeNet`: `p₁ = 5 − 1·1·|1| = 4` bar. -/
def Reversal.pipeSol : List ℚ := [5, 4]

/-- Converged temperatures of `pipeNet` for the decay factor 1/2:
`T₁ = 293 + (300 − 293)·(1/2) = 296.5` K. -/
def Reversal.pipeTSol : List ℚ := [300, 2965/10]

/-- The minimal closed-valve network of the tutorial: an ext-grid junction
(5 bar), a middle junction connected by a pipe, and a sink junction
(1 kg/s) behind a closed valve. -/
def Flow.closedValveNet : Flow.Net :=
  { junctions :=
      [⟨.pFixed 5, 5, 29315/100, 0, true⟩,
       ⟨.free, 5, 29315/100, 0, true⟩,
       ⟨.free, 5, 29315/100, 1, true⟩],
    branches :=
      [⟨0, 1, 1/100, 293, true⟩,
       ⟨1, 2, 0, 293, false⟩],
    resP := [none, none, none],
    resT := [none, none, none],
    resMdot := [none, none] }

/-- Pipeflow options of the closed-valve run: hydraulic mode with the
connectivity check enabled. -/
def Flow.connOpts : Flow.Options := ⟨.hydraulics, true, none⟩

/-- The closed-valve pipeflow run (the thermal decay parameter is unused in
hydraulic mode). -/
def Flow.closedValveRun : Except (PipeflowError × Flow.Net) Flow.Net :=
  Flow.pipeflow (fun _ => 1) Flow.closedValveNet Flow.connOpts

/-- A two-junction network (5 bar ext-grid, free junction with 1 kg/s sink,
one pipe) used to exercise the heat mode: its own hydraulic solution would
be `p = [5, 4.99]`, distinct from the supplied vector below. -/
def Flow.heatNet : Flow.Net :=
  { junctions :=
      [⟨.pFixed 5, 5, 300, 0, true⟩,
       ⟨.free, 5, 300, 1, true⟩],
    branches := [⟨0, 1, 1/100, 293, true⟩],
    resP := [none, none],
    resT := [none, none],
    resMdot := [none] }

/-- A user-supplied hydraulics solution vector for `heatNet`, deliberately
different from what the hydraulic kernel would compute. -/
def Flow.heatHyd : Flow.HydSolution := ⟨[some 99, some 98], [some 7]⟩

/-- NodePIT rows of the two-node witness system of the residual model:
one slack node and one free node with 1 kg/s sink demand. -/
def NR.wNodes : List NR.NodeRow :=
  [⟨.pFixed, 5, 5, 0, 0, true⟩, ⟨.free, 4, 0, 0, 1, true⟩]

/-- BranchPIT rows of the two-node witness system: one active branch
carrying 1 kg/s into the free node. -/
def NR.wBranches : List NR.BranchRow := [⟨0, 1, 1, true⟩]

end Pandapipes

namespace Pandapipes

/-! ## Theorems -/

/-- Auxiliary: every entry of a residual vector is bounded in absolute
value by `maxAbs` of the vector. -/
theorem NR.le_maxAbs_of_mem {l : List ℚ} {x : ℚ} (h : x ∈ l) :
    |x| ≤ NR.maxAbs l := by
  induction l with
  | nil => simp at h
  | cons a t ih =>
    rcases List.mem_cons.mp h with rfl | ht
    · simp [NR.maxAbs]
    · calc |x| ≤ NR.maxAbs t := ih ht
        _ ≤ max |a| (NR.maxAbs t) := le_max_right _ _

/-- C2: For a compressor branch the solved outlet pressure satisfies
`p_to + p_amb = (p_from + p_amb)·Π` whenever the branch mass flow is
positive and `p_to = p_from` otherwise; the isentropic exponent is
κ = 1.4; and the reported compression power agrees with the ideal
adiabatic closed form within 1 %. -/
theorem compressor_pressure_and_power
    (pFrom pAmb ratioVal mdot rs z ti ratioPow : ℚ) :
    (0 < mdot →
      compressorPTo pFrom pAmb ratioVal mdot + pAmb = (pFrom + pAmb) * ratioVal) ∧
    (¬ 0 < mdot → compressorPTo pFrom pAmb ratioVal mdot = pFrom) ∧
    kappa = 7 / 5 ∧
    |compressorPower mdot rs z ti ratioPow - adiabaticClosedForm mdot rs z ti ratioPow|
      ≤ |adiabaticClosedForm mdot rs z ti ratioPow| / 100 := by
  refine ⟨fun h => ?_, fun h => ?_, rfl, ?_⟩
  · rw [compressorPTo, if_pos h]
    ring
  · rw [compressorPTo, if_neg h]
  · rw [compressorPower, adiabaticClosedForm, sub_self, abs_zero]
    positivity

/-- Witness for C2 at Π = 1.5, p_from = 5 bar, p_amb = 1.01325 bar,
mdot = 1 kg/s (and a zero-flow instance for the bypass case). -/
theorem compressor_pressure_and_power_witness :
    compressorPTo 5 (101325/100000) (3/2) 1 + 101325/100000
        = (5 + 101325/100000) * (3/2) ∧
    compressorPTo 5 (101325/100000) (3/2) 0 = 5 ∧
    |compressorPower 1 287 1 (29315/100) (28/25)
        - adiabaticClosedForm 1 287 1 (29315/100) (28/25)|
      ≤ |adiabaticClosedForm 1 287 1 (29315/100) (28/25)| / 100 :=
  ⟨(compressor_pressure_and_power 5 (101325/100000) (3/2) 1 287 1 (29315/100)
      (28/25)).1 (by norm_num),
   (compressor_pressure_and_power 5 (101325/100000) (3/2) 0 287 1 (29315/100)
      (28/25)).2.1 (by norm_num),
   (compressor_pressure_and_power 5 (101325/100000) (3/2) 1 287 1 (29315/100)
      (28/25)).2.2.2⟩

/-- C3: The pump pressure lift equals the stored polynomial regression at
the current volume flow clipped to be nonnegative whenever the flow is in
the regression range, and is exactly 0 on reverse flow (`v < 0`) and
beyond `v_max`; the lift is never negative. -/
theorem pump_lift_clipped (coeffs : List ℚ) (vMax v : ℚ) :
    (0 ≤ v → v ≤ vMax → pumpPressureLift coeffs vMax v = max 0 (polyEval coeffs v)) ∧
    ((v < 0 ∨ vMax < v) → pumpPressureLift coeffs vMax v = 0) ∧
    0 ≤ pumpPressureLift coeffs vMax v := by
  refine ⟨fun h1 h2 => ?_, fun h => ?_, ?_⟩
  · rw [pumpPressureLift, if_neg]
    exact not_or.mpr ⟨not_lt.mpr h1, not_lt.mpr h2⟩
  · rw [pumpPressureLift, if_pos h]
  · rw [pumpPressureLift]
    split
    · exact le_refl 0
    · exact le_max_left 0 _

/-- Witness for C3 with regression `2 − v`, `v_max = 10`: lift 1 at
`v = 1`, lift 0 at `v = −1` (reverse flow) and at `v = 11` (beyond
`v_max`). -/
theorem pump_lift_clipped_witness :
    pumpPressureLift [2, -1] 10 1 = max 0 (polyEval [2, -1] 1) ∧
    pumpPressureLift [2, -1] 10 (-1) = 0 ∧
    pumpPressureLift [2, -1] 10 11 = 0 ∧
    0 ≤ pumpPressureLift [2, -1] 10 1 :=
  ⟨(pump_lift_clipped [2, -1] 10 1).1 (by norm_num) (by norm_num),
   (pump_lift_clipped [2, -1] 10 (-1)).2.1 (Or.inl (by norm_num)),
   (pump_lift_clipped [2, -1] 10 11).2.1 (Or.inr (by norm_num)),
   (pump_lift_clipped [2, -1] 10 1).2.2⟩

/-- C4: The friction factor closure is user-selectable among exactly the
three models Nikuradse, Swamee-Jain and Prandtl-Colebrook; when Nikuradse
is selected, one single explicit formula
`λ = 64/Re + (−2·log10(k/(3.71·d)))⁻²` is applied for every Reynolds
number, i.e. in the laminar and in the turbulent regime alike; and the
Prandtl-Colebrook closure is the inner fixed-point iteration with its own
iteration cap. -/
theorem friction_closures (log10 sqrtQ : ℚ → ℚ)
    (re k d rePow09 lam0 : ℚ) (cap : ℕ) :
    (∀ m : FrictionModel, m = .nikuradse ∨ m = .swameeJain ∨ m = .colebrook) ∧
    (FrictionModel.nikuradse ≠ .swameeJain ∧ FrictionModel.nikuradse ≠ .colebrook ∧
      FrictionModel.swameeJain ≠ .colebrook) ∧
    (laminarRegime re = true ∨ laminarRegime re = false) ∧
    calcLambda log10 sqrtQ .nikuradse re k d rePow09 cap lam0
      = 64 / re + 1 / (-2 * log10 (k / (3.71 * d)))^2 ∧
    calcLambda log10 sqrtQ .colebrook re k d rePow09 cap lam0
      = colebrookIterate log10 sqrtQ re k d cap lam0 := by
  refine ⟨fun m => ?_, by decide, ?_, rfl, rfl⟩
  · cases m
    · exact Or.inl rfl
    · exact Or.inr (Or.inl rfl)
    · exact Or.inr (Or.inr rfl)
  · cases h : laminarRegime re
    · exact Or.inr rfl
    · exact Or.inl rfl

end Pandapipes

namespace Pandapipes

/-- C1: For every converged hydraulic solve, at every active non-slack
node the signed sum of incident branch mass flows plus external injection
minus demand (Σ in-flows − Σ out-flows − (sink − source)) has absolute
value at most `tol_res`: the node's imbalance is an entry of the residual
vector whose maximum absolute value the convergence test bounds. -/
theorem NR.converged_mass_balance
    (nodes : List NR.NodeRow) (branches : List NR.BranchRow)
    (branchRes deltaP deltaM : List ℚ) (tolRes tolP tolM : ℚ) (i : ℕ)
    (hi : i < nodes.length)
    (hact : (nodes.getD i default).active = true)
    (hfree : (nodes.getD i default).ntype = .free)
    (hconv : NR.hydConverged (NR.residualVector nodes branches branchRes)
      deltaP deltaM tolRes tolP tolM) :
    |NR.inflowSum branches i - NR.outflowSum branches i -
      ((nodes.getD i default).mSink - (nodes.getD i default).mSource)| ≤ tolRes := by
  have hres : NR.nodeResidual nodes branches i
      = NR.inflowSum branches i - NR.outflowSum branches i
        - ((nodes.getD i default).mSink - (nodes.getD i default).mSource) := by
    simp only [NR.nodeResidual, hfree]
    ring
  have hmem : NR.nodeResidual nodes branches i
      ∈ NR.residualVector nodes branches branchRes := by
    unfold NR.residualVector
    refine List.mem_append_left _
      (List.mem_filterMap.mpr ⟨i, List.mem_range.mpr hi, ?_⟩)
    rw [if_pos hact]
  calc |NR.inflowSum branches i - NR.outflowSum branches i -
      ((nodes.getD i default).mSink - (nodes.getD i default).mSource)|
      = |NR.nodeResidual nodes branches i| := by rw [hres]
    _ ≤ NR.maxAbs (NR.residualVector nodes branches branchRes) :=
        NR.le_maxAbs_of_mem hmem
    _ ≤ tolRes := hconv.1

/-- Witness for C1 on the two-node system `wNodes`/`wBranches` with all
tolerances 1/1000: the free node's mass imbalance is within `tol_res`. -/
theorem NR.converged_mass_balance_witness :
    |NR.inflowSum NR.wBranches 1 - NR.outflowSum NR.wBranches 1 -
      ((NR.wNodes.getD 1 default).mSink - (NR.wNodes.getD 1 default).mSource)|
      ≤ 1/1000 :=
  NR.converged_mass_balance NR.wNodes NR.wBranches [0] [0] [0]
    (1/1000) (1/1000) (1/1000) 1
    (by decide) (by decide) (by decide)
    ⟨by with_unfolding_all decide, by with_unfolding_all decide,
     by with_unfolding_all decide⟩

end Pandapipes

namespace Pandapipes

/-- C5 counterexample: at a thermally active branch with mass flow 0 (well
below any tolerance `tol_m`), the modelled code does not warn and skip the
branch with the node temperature propagated through unchanged — it
produces a zero line in the thermal system matrix and the solve fails with
the singular-factorization `SolverError`. -/
theorem thermal_zero_flow_counterexample :
    |(0 : ℚ)| < 1/10000 ∧
    thermalBranchRow 0 4182 (9/10) 350 293 = (0, 0) ∧
    thermalSolveBranch 0 4182 (9/10) 350 293 = .error .solverError ∧
    thermalSolveBranch 0 4182 (9/10) 350 293 ≠ .ok 350 := by
  refine ⟨by norm_num, by simp [thermalBranchRow], ?_, ?_⟩
  · simp [thermalSolveBranch, luSolveRow, thermalBranchRow]
  · simp [thermalSolveBranch, luSolveRow, thermalBranchRow]

/-- C5 amended: a thermally active branch with zero mass flow is not
detected and skipped; it contributes a zero line to the thermal system
matrix (the documented known issue) and the thermal solve fails with the
singular-factorization `SolverError`; the surfaced error taxonomy contains
no `ThermalSingularity` at all. -/
theorem thermal_zero_flow_amended (cp decay tIn tAmb : ℚ) :
    thermalBranchRow 0 cp decay tIn tAmb = (0, 0) ∧
    thermalSolveBranch 0 cp decay tIn tAmb = .error .solverError ∧
    (∀ e : PipeflowError, e = .noConvergence ∨ e = .noSlack ∨
      e = .invalidTopology ∨ e = .thermalNoConvergence ∨ e = .solverError) := by
  refine ⟨?_, ?_, fun e => ?_⟩
  · simp [thermalBranchRow]
  · simp [thermalSolveBranch, luSolveRow, thermalBranchRow]
  · cases e
    · exact Or.inl rfl
    · exact Or.inr (Or.inl rfl)
    · exact Or.inr (Or.inr (Or.inl rfl))
    · exact Or.inr (Or.inr (Or.inr (Or.inl rfl)))
    · exact Or.inr (Or.inr (Or.inr (Or.inr rfl)))

/-- C6: running pipeflow with the connectivity check enabled on the
network whose sink is cut from its only pressure-fixed ext-grid by a
closed valve succeeds — no `NoConvergence` or other error; the cut-off
junction is set out of service for the solve and its result rows are NaN,
while the supplied side receives values. -/
theorem closed_valve_connectivity :
    Flow.pfOk Flow.closedValveRun = true ∧
    Flow.activeNodes Flow.closedValveNet true = [true, true, false] ∧
    Flow.pfResP Flow.closedValveRun 0 = some 5 ∧
    Flow.pfResP Flow.closedValveRun 1 = some 5 ∧
    Flow.pfResP Flow.closedValveRun 2 = none ∧
    Flow.pfResT Flow.closedValveRun 2 = none ∧
    Flow.pfResMdot Flow.closedValveRun 0 = some 0 ∧
    Flow.pfResMdot Flow.closedValveRun 1 = none := by
  with_unfolding_all decide

end Pandapipes

namespace Pandapipes.Reversal

/-- Auxiliary: the signed nodal contribution of a branch is invariant
under reversal (swap of endpoints with negated stored flow). -/
theorem nodeContrib_reverse (i : ℕ) (b : RBranch) :
    nodeContrib i (reverseBranch b) = nodeContrib i b := by
  simp only [nodeContrib, reverseBranch]
  split_ifs <;> ring

/-- Auxiliary: nodal balance sums are invariant under reversing any subset
of branches. -/
theorem contribSum_applyReversal (i : ℕ) :
    ∀ (mask : List Bool) (bs : List RBranch),
      ((applyReversal mask bs).map (nodeContrib i)).sum
        = (bs.map (nodeContrib i)).sum := by
  intro mask bs
  induction bs generalizing mask with
  | nil => cases mask <;> simp [applyReversal]
  | cons b bs ih =>
    cases mask with
    | nil => simp [applyReversal]
    | cons m ms =>
      cases m
      · simp only [applyReversal, List.map_cons, List.sum_cons, ih, if_neg]
        simp
      · simp only [applyReversal, List.map_cons, List.sum_cons, ih, if_pos]
        simp [nodeContrib_reverse]

/-- Auxiliary: reversing a pipe branch negates its momentum residual. -/
theorem branchResidual_reverse_pipe (p : List ℚ) (b : RBranch)
    (hb : isPipeKind b.kind = true) :
    branchResidual p (reverseBranch b) = -branchResidual p b := by
  cases hk : b.kind with
  | pipe c =>
    simp only [branchResidual, reverseBranch, hk]
    rw [abs_neg]
    ring
  | compressor rv pa =>
    rw [hk] at hb
    simp [isPipeKind] at hb

/-- Auxiliary: the branch residual equations of a network are equivalent
to those of the network with a subset of pipe branches reversed. -/
theorem branchesSatisfy_applyReversal (p : List ℚ) :
    ∀ (mask : List Bool) (bs : List RBranch),
      (∀ pr ∈ mask.zip bs, pr.1 = true → isPipeKind pr.2.kind = true) →
      ((∀ b ∈ applyReversal mask bs, branchResidual p b = 0) ↔
        (∀ b ∈ bs, branchResidual p b = 0)) := by
  intro mask bs
  induction bs generalizing mask with
  | nil => intro _; cases mask <;> simp [applyReversal]
  | cons b bs ih =>
    intro hp
    cases mask with
    | nil => simp [applyReversal]
    | cons m ms =>
      have htail : ∀ pr ∈ ms.zip bs, pr.1 = true → isPipeKind pr.2.kind = true := by
        intro pr hpr
        exact hp pr (by simp [List.zip_cons_cons, List.mem_cons]; exact Or.inr hpr)
      have hhead : (branchResidual p (if m then reverseBranch b else b) = 0) ↔
          (branchResidual p b = 0) := by
        cases m
        · simp
        · have hb : isPipeKind b.kind = true :=
            hp (true, b) (by simp [List.zip_cons_cons]) rfl
          simp only [if_pos]
          rw [branchResidual_reverse_pipe p b hb, neg_eq_zero]
      simp only [applyReversal, List.mem_cons, forall_eq_or_imp]
      exact and_congr hhead (ih ms htail)

/-- Auxiliary: nodal residuals are invariant under reversing any subset of
branches. -/
theorem nodeRes_reverseSubset (net : RNet) (mask : List Bool) (p : List ℚ)
    (i : ℕ) : nodeRes (reverseSubset mask net) p i = nodeRes net p i := by
  simp only [nodeRes, reverseSubset]
  cases h : net.nodes[i]?.getD (RNode.free 0) <;>
    simp [h, contribSum_applyReversal]

/-- Auxiliary: the hydraulic satisfaction predicate is invariant under
reversing a subset of pipe branches. -/
theorem satisfies_reverseSubset_pipes (net : RNet) (mask : List Bool)
    (p : List ℚ)
    (hmask : ∀ pr ∈ mask.zip net.branches, pr.1 = true →
      isPipeKind pr.2.kind = true) :
    satisfies (reverseSubset mask net) p ↔ satisfies net p := by
  unfold satisfies
  apply and_congr
  · exact forall_congr' fun i => forall_congr' fun _ => by
      rw [nodeRes_reverseSubset]
  · exact branchesSatisfy_applyReversal p mask net.branches hmask

/-- Auxiliary: the mass flow a branch carries into node `i` along its
physical flow direction is invariant under reversal. -/
theorem inflowTo_reverse (i : ℕ) (b : RBranch) :
    inflowTo i (reverseBranch b) = inflowTo i b := by
  simp only [inflowTo, reverseBranch]
  rcases lt_trichotomy b.mdot 0 with h | h | h
  · rw [if_pos (by linarith : (0:ℚ) < -b.mdot),
      if_neg (by linarith : ¬ (0:ℚ) < b.mdot)]
  · rw [h]
    simp
  · rw [if_neg (by linarith : ¬ (0:ℚ) < -b.mdot), if_pos h]
    simp

/-- Auxiliary: a branch with nonzero flow has the same outlet temperature
after reversal (the upstream node and the decay factor are determined by
the physical flow direction and the absolute flow). -/
theorem outletT_reverse (decay : ℚ → ℚ) (t : List ℚ) (b : RBranch)
    (h : b.mdot ≠ 0) :
    outletT decay t (reverseBranch b) = outletT decay t b := by
  simp only [outletT, upstreamT, reverseBranch, abs_neg]
  rcases h.lt_or_lt with h' | h'
  · rw [if_pos (by linarith : (0:ℚ) < -b.mdot),
      if_neg (by linarith : ¬ (0:ℚ) < b.mdot)]
  · rw [if_neg (by linarith : ¬ (0:ℚ) < -b.mdot), if_pos h']

/-- Auxiliary: the energy a branch carries into node `i` is invariant
under reversal (at zero flow both sides vanish). -/
theorem inflowOutlet_reverse (decay : ℚ → ℚ) (t : List ℚ) (i : ℕ)
    (b : RBranch) :
    inflowTo i (reverseBranch b) * outletT decay t (reverseBranch b)
      = inflowTo i b * outletT decay t b := by
  by_cases h : b.mdot = 0
  · simp [inflowTo, reverseBranch, h]
  · rw [inflowTo_reverse, outletT_reverse decay t b h]

/-- Auxiliary: incoming-flow sums are invariant under reversing any
subset of branches. -/
theorem inflowToSum_applyReversal (i : ℕ) :
    ∀ (mask : List Bool) (bs : List RBranch),
      ((applyReversal mask bs).map (inflowTo i)).sum
        = (bs.map (inflowTo i)).sum := by
  intro mask bs
  induction bs generalizing mask with
  | nil => cases mask <;> simp [applyReversal]
  | cons b bs ih =>
    cases mask with
    | nil => simp [applyReversal]
    | cons m ms =>
      cases m
      · simp only [applyReversal, List.map_cons, List.sum_cons, ih, if_neg]
        simp
      · simp only [applyReversal, List.map_cons, List.sum_cons, ih, if_pos]
        simp [inflowTo_reverse]

/-- Auxiliary: incoming-energy sums are invariant under reversing any
subset of branches. -/
theorem inflowOutletSum_applyReversal (decay : ℚ → ℚ) (t : List ℚ)
    (i : ℕ) :
    ∀ (mask : List Bool) (bs : List RBranch),
      ((applyReversal mask bs).map
          (fun b => inflowTo i b * outletT decay t b)).sum
        = (bs.map (fun b => inflowTo i b * outletT decay t b)).sum := by
  intro mask bs
  induction bs generalizing mask with
  | nil => cases mask <;> simp [applyReversal]
  | cons b bs ih =>
    cases mask with
    | nil => simp [applyReversal]
    | cons m ms =>
      cases m
      · simp only [applyReversal, List.map_cons, List.sum_cons, ih, if_neg]
        simp
      · simp only [applyReversal, List.map_cons, List.sum_cons, ih, if_pos]
        simp [inflowOutlet_reverse]

/-- Auxiliary: thermal nodal residuals are invariant under reversing any
subset of branches. -/
theorem thermNodeRes_reverseSubset (decay : ℚ → ℚ) (net : RNet)
    (mask : List Bool) (t : List ℚ) (i : ℕ) :
    thermNodeRes decay (reverseSubset mask net) t i
      = thermNodeRes decay net t i := by
  simp only [thermNodeRes, reverseSubset]
  cases h : net.nodes[i]?.getD (RNode.free 0) <;>
    simp [h, inflowToSum_applyReversal, inflowOutletSum_applyReversal]

/-- C9 amended: reversing the orientation of a subset of
direction-symmetric branches (pipes) and negating their stored mass flows
preserves the set of converged coupled solutions — the solved nodal
pressures and the solved nodal temperatures; the property fails for
directional branches such as compressors (see the counterexample). -/
theorem reversal_invariance_pipes (decay : ℚ → ℚ) (net : RNet)
    (mask : List Bool) (p t : List ℚ)
    (hmask : ∀ pr ∈ mask.zip net.branches, pr.1 = true →
      isPipeKind pr.2.kind = true) :
    satisfiesT decay (reverseSubset mask net) p t ↔
      satisfiesT decay net p t := by
  unfold satisfiesT
  apply and_congr
  · exact satisfies_reverseSubset_pipes net mask p hmask
  · exact forall_congr' fun i => forall_congr' fun _ => by
      rw [thermNodeRes_reverseSubset]

/-- Witness for the amended C9: the single-pipe network with its pipe
reversed has exactly the coupled pressure/temperature solutions of the
original network. -/
theorem reversal_invariance_pipes_witness :
    satisfiesT (fun _ => 1/2) (reverseSubset [true] pipeNet)
        pipeSol pipeTSol ↔
      satisfiesT (fun _ => 1/2) pipeNet pipeSol pipeTSol :=
  reversal_invariance_pipes (fun _ => 1/2) pipeNet [true] pipeSol pipeTSol
    (by
      intro pr hpr _
      simp [pipeNet, List.zip_cons_cons] at hpr
      subst hpr
      rfl)

/-- C9 counterexample: reversing the from/to orientation of a compressor
branch and negating its stored mass flow changes the solved nodal
pressures — the converged solution of the original network does not solve
the reversed network and conversely, and the solved pressure at node 1
differs (8.006625 bar against 5 bar). -/
theorem reversal_changes_compressor_solution :
    satisfies comprNet comprSol ∧
    satisfies (reverseSubset [true] comprNet) comprRevSol ∧
    ¬ satisfies (reverseSubset [true] comprNet) comprSol ∧
    ¬ satisfies comprNet comprRevSol ∧
    comprSol.getD 1 0 ≠ comprRevSol.getD 1 0 := by
  with_unfolding_all decide

end Pandapipes.Reversal

namespace Pandapipes

/-- C8: the circular district-heating tutorial results: the four junction
temperatures drop monotonically from exactly 308.15 K through ≈307.05,
≈305.86 and ≈304.93 K; each of the two pipes exhibits a pressure drop of
≈0.175 bar (and the heat exchanger none); the two pipes show the same
exponential heat-loss decay ratio to 10⁻⁷; and the temperature drop over
the heat exchanger is consistent with `ΔT = qext/(mdot·cp)` for a water
heat capacity `cp`. -/
theorem CircHeat.circular_heating_results :
    CircHeat.resJunctionT.getD 0 0 = 30815/100 ∧
    CircHeat.resJunctionT.getD 0 0 > CircHeat.resJunctionT.getD 1 0 ∧
    CircHeat.resJunctionT.getD 1 0 > CircHeat.resJunctionT.getD 2 0 ∧
    CircHeat.resJunctionT.getD 2 0 > CircHeat.resJunctionT.getD 3 0 ∧
    |CircHeat.resJunctionT.getD 1 0 - 30705/100| ≤ 5/1000 ∧
    |CircHeat.resJunctionT.getD 2 0 - 30586/100| ≤ 5/1000 ∧
    |CircHeat.resJunctionT.getD 3 0 - 30493/100| ≤ 5/1000 ∧
    |(CircHeat.resJunctionP.getD 0 0 - CircHeat.resJunctionP.getD 1 0)
      - 175/1000| ≤ 6/10000 ∧
    CircHeat.resJunctionP.getD 1 0 = CircHeat.resJunctionP.getD 2 0 ∧
    |(CircHeat.resJunctionP.getD 2 0 - CircHeat.resJunctionP.getD 3 0)
      - 175/1000| ≤ 6/10000 ∧
    |CircHeat.decayRatio (CircHeat.resJunctionT.getD 0 0)
        (CircHeat.resJunctionT.getD 1 0)
      - CircHeat.decayRatio (CircHeat.resJunctionT.getD 2 0)
        (CircHeat.resJunctionT.getD 3 0)| ≤ 1/10000000 ∧
    4150 ≤ CircHeat.impliedCp ∧ CircHeat.impliedCp ≤ 4250 := by
  norm_num [CircHeat.resJunctionT, CircHeat.resJunctionP, CircHeat.decayRatio,
    CircHeat.impliedCp, CircHeat.tAmbient, CircHeat.qextW, CircHeat.mdotCirc,
    abs_le]

end Pandapipes

namespace Pandapipes.Flow

/-- C10: with the pipeflow option `mode = "heat"` the call does not
compute the hydraulic state itself: a valid hydraulics solution vector
must be supplied by the user (the call fails when none is supplied), that
vector is written back verbatim as the hydraulic result, and the
temperature calculation is performed on top of the supplied flows. -/
theorem heat_mode_requires_supplied_hydraulics
    (decay : ℚ → ℚ) (net : Net) (check : Bool) (h : HydSolution)
    (hvt : validTopology net = true)
    (hvalid : validHyd net (activeNodes net check)
      (activeBranches net (activeNodes net check)) h = true)
    (hcomp : thermComplete net.junctions (activeNodes net check)
      (runThermal decay net.junctions net.branches (activeNodes net check)
        (activeBranches net (activeNodes net check)) h.mdot) = true) :
    pipeflow decay net ⟨.heat, check, some h⟩ =
      .ok { net with
        resP := h.p,
        resT := runThermal decay net.junctions net.branches
          (activeNodes net check)
          (activeBranches net (activeNodes net check)) h.mdot,
        resMdot := h.mdot } ∧
    pipeflow decay net ⟨.heat, check, none⟩ =
      .error (.solverError, clearedResults net) := by
  constructor
  · simp only [pipeflow, hvt, Bool.not_true, Bool.false_eq_true, if_false,
      hvalid, if_true, hcomp, restoreService, withServiceFlags]
  · simp only [pipeflow, hvt, Bool.not_true, Bool.false_eq_true, if_false,
      restoreService, withServiceFlags, clearedResults]

end Pandapipes.Flow

namespace Pandapipes.Flow

/-- Auxiliary: the hydraulic kernel returns `ok` only with a complete
solution (a pressure at every active node, a flow at every active
branch). -/
theorem runHydraulic_ok (js : List Junction) (bs : List Branch)
    (an ab : List Bool) (p flows : List (Option ℚ))
    (h : runHydraulic js bs an ab = .ok (p, flows)) :
    hydComplete js bs an ab p flows = true := by
  simp only [runHydraulic] at h
  split at h
  · simp at h
  · split at h
    · rename_i hcomp
      injection h with h2
      injection h2 with h3 h4
      subst h3
      subst h4
      exact hcomp
    · simp at h

/-- Auxiliary: a well-formed user-supplied hydraulics vector is a complete
hydraulic solution. -/
theorem validHyd_hydComplete (net : Net) (an ab : List Bool)
    (h : HydSolution) (hv : validHyd net an ab h = true) :
    hydComplete net.junctions net.branches an ab h.p h.mdot = true := by
  simp only [validHyd, Bool.and_eq_true, List.all_eq_true] at hv
  obtain ⟨⟨⟨-, -⟩, hn⟩, hb⟩ := hv
  simp only [hydComplete, Bool.and_eq_true, List.all_eq_true]
  exact ⟨fun i hi => (hn i hi).1, fun bi hbi => (hb bi hbi).1⟩

/-- Auxiliary: the static junction temperatures written by a purely
hydraulic solve are complete. -/
theorem thermComplete_staticT (js : List Junction) (an : List Bool) :
    thermComplete js an (staticT js an) = true := by
  simp only [thermComplete, List.all_eq_true]
  intro i hi
  rw [List.mem_range] at hi
  have hst : (staticT js an).getD i none
      = if an.getD i false then some (js.getD i default).tn else none := by
    simp [staticT, List.getD_eq_getElem?_getD, List.getElem?_map,
      List.getElem?_range hi]
  rw [hst]
  cases h : an.getD i false <;> simp [h]

end Pandapipes.Flow

namespace Pandapipes.Flow

/-- C7: result write-back is atomic per pipeflow call: a successful call
writes a complete result set (a value at every active row of every result
table) and leaves the element tables (in particular the in-service flags)
as before the solve, while a failed call returns the error together with
the network whose result tables are cleared to all-NaN and whose pre-solve
element tables (and in-service flags) are restored. -/
theorem pipeflow_atomic_writeback (decay : ℚ → ℚ) (net : Net)
    (opts : Options) :
    match pipeflow decay net opts with
    | .ok res =>
        resultsComplete net opts res = true ∧
        res.junctions = net.junctions ∧ res.branches = net.branches
    | .error e =>
        e.2.resP = net.junctions.map (fun _ => none) ∧
        e.2.resT = net.junctions.map (fun _ => none) ∧
        e.2.resMdot = net.branches.map (fun _ => none) ∧
        e.2.junctions = net.junctions ∧ e.2.branches = net.branches := by
  obtain ⟨mode, check, sup⟩ := opts
  cases mode
  case hydraulics =>
    cases hr : pipeflow decay net ⟨.hydraulics, check, sup⟩ with
    | error e =>
      dsimp only
      simp only [pipeflow] at hr
      split at hr
      · injection hr with h
        subst h
        simp [clearedResults, restoreService]
      · split at hr
        · injection hr with h
          subst h
          simp [clearedResults, restoreService]
        · simp at hr
    | ok res =>
      dsimp only
      simp only [pipeflow] at hr
      split at hr
      · simp at hr
      · split at hr
        · simp at hr
        · rename_i p flows heq
          injection hr with h
          subst h
          refine ⟨?_, rfl, rfl⟩
          simp only [resultsComplete, restoreService, Bool.and_eq_true]
          exact ⟨runHydraulic_ok _ _ _ _ _ _ heq, thermComplete_staticT _ _⟩
  case sequential =>
    cases hr : pipeflow decay net ⟨.sequential, check, sup⟩ with
    | error e =>
      dsimp only
      simp only [pipeflow] at hr
      split at hr
      · injection hr with h
        subst h
        simp [clearedResults, restoreService]
      · split at hr
        · injection hr with h
          subst h
          simp [clearedResults, restoreService]
        · split at hr
          · simp at hr
          · injection hr with h
            subst h
            simp [clearedResults, restoreService]
    | ok res =>
      dsimp only
      simp only [pipeflow] at hr
      split at hr
      · simp at hr
      · split at hr
        · simp at hr
        · rename_i p flows heq
          split at hr
          · rename_i hth
            injection hr with h
            subst h
            refine ⟨?_, rfl, rfl⟩
            simp only [resultsComplete, restoreService, Bool.and_eq_true]
            exact ⟨runHydraulic_ok _ _ _ _ _ _ heq, hth⟩
          · simp at hr
  case bidirectional =>
    cases hr : pipeflow decay net ⟨.bidirectional, check, sup⟩ with
    | error e =>
      dsimp only
      simp only [pipeflow] at hr
      split at hr
      · injection hr with h
        subst h
        simp [clearedResults, restoreService]
      · split at hr
        · injection hr with h
          subst h
          simp [clearedResults, restoreService]
        · split at hr
          · simp at hr
          · injection hr with h
            subst h
            simp [clearedResults, restoreService]
    | ok res =>
      dsimp only
      simp only [pipeflow] at hr
      split at hr
      · simp at hr
      · split at hr
        · simp at hr
        · rename_i p flows heq
          split at hr
          · rename_i hth
            injection hr with h
            subst h
            refine ⟨?_, rfl, rfl⟩
            simp only [resultsComplete, restoreService, Bool.and_eq_true]
            exact ⟨runHydraulic_ok _ _ _ _ _ _ heq, hth⟩
          · simp at hr
  case heat =>
    cases sup with
    | none =>
      cases hr : pipeflow decay net ⟨.heat, check, none⟩ with
      | error e =>
        dsimp only
        simp only [pipeflow] at hr
        split at hr
        · injection hr with h
          subst h
          simp [clearedResults, restoreService]
        · injection hr with h
          subst h
          simp [clearedResults, restoreService]
      | ok res =>
        dsimp only
        simp only [pipeflow] at hr
        split at hr <;> simp at hr
    | some h0 =>
      cases hr : pipeflow decay net ⟨.heat, check, some h0⟩ with
      | error e =>
        dsimp only
        simp only [pipeflow] at hr
        split at hr
        · injection hr with h
          subst h
          simp [clearedResults, restoreService]
        · split at hr
          · split at hr
            · simp at hr
            · injection hr with h
              subst h
              simp [clearedResults, restoreService]
          · injection hr with h
            subst h
            simp [clearedResults, restoreService]
      | ok res =>
        dsimp only
        simp only [pipeflow] at hr
        split at hr
        · simp at hr
        · split at hr
          · rename_i hv
            split at hr
            · rename_i hth
              injection hr with h
              subst h
              refine ⟨?_, rfl, rfl⟩
              simp only [resultsComplete, restoreService, Bool.and_eq_true]
              exact ⟨validHyd_hydComplete _ _ _ _ hv, hth⟩
            · simp at hr
          · simp at hr

end Pandapipes.Flow

namespace Pandapipes.Flow

/-- Witness for C10: on `heatNet` the heat-mode call returns exactly the
supplied hydraulics vector (not the kernel's own solution) with the
temperatures computed from the supplied flows, and fails when no vector is
supplied. -/
theorem heat_mode_requires_supplied_hydraulics_witness :
    pipeflow (fun _ => 1/2) heatNet ⟨.heat, true, some heatHyd⟩ =
      .ok { heatNet with
        resP := heatHyd.p,
        resT := runThermal (fun _ => 1/2) heatNet.junctions heatNet.branches
          (activeNodes heatNet true)
          (activeBranches heatNet (activeNodes heatNet true)) heatHyd.mdot,
        resMdot := heatHyd.mdot } ∧
    pipeflow (fun _ => 1/2) heatNet ⟨.heat, true, none⟩ =
      .error (.solverError, clearedResults heatNet) :=
  heat_mode_requires_supplied_hydraulics (fun _ => 1/2) heatNet true heatHyd
    (by with_unfolding_all decide) (by with_unfolding_all decide)
    (by with_unfolding_all decide)

end Pandapipes.Flow
